import Mathlib

/-!
Verification of the presence-tracking and realtime message-synchronization
core of the WhatsChat conversation view (src/src/contexts/Chat.tsx).

The definitions below are a shallow embedding of the handlers in Chat.tsx:
message-list updaters (the realtime INSERT/DELETE handlers, the optimistic
append of handleSendMessage and its reconciliation step), the presence
writes (updateOnlineStatus, sendHeartbeat, checkHeartbeatStatus,
updateTabCount) and the delete flow (handleDeleteMessage).  Timestamps are
modelled as integer milliseconds; fallible network calls are modelled by
explicit success flags, a failed call leaving the written state unchanged
(the code catches and logs every such failure).
-/

namespace WhatsChat

/-- A row of the `messages` table (src/src/lib database types, used
throughout Chat.tsx). -/
structure Message where
  id : String
  chat_id : String
  sender_id : String
  content : Option String
  created_at : Int
  media_url : Option String
  media_type : Option String
  deriving Repr, DecidableEq

/-- The ids held by a message list. -/
def ids (l : List Message) : List String := l.map Message.id

/-- Realtime INSERT handler, Chat.tsx lines 675-691 (message-list part):
`if (prev.some(msg => msg.id === newMessage.id)) return prev;
 return [...prev, newMessage];`. -/
def applyRemoteInsert (prev : List Message) (newMessage : Message) :
    List Message :=
  if prev.any (fun msg => msg.id == newMessage.id) then prev
  else prev ++ [newMessage]

/-- Realtime DELETE handler, Chat.tsx line 708:
`setMessages(prev => prev.filter(msg => msg.id !== deletedMessageId))`. -/
def applyRemoteDelete (prev : List Message) (deletedMessageId : String) :
    List Message :=
  prev.filter (fun msg => msg.id != deletedMessageId)

/-- Optimistic append, Chat.tsx line 1152:
`setMessages(prev => [...prev, optimisticMessage])`. -/
def appendOptimistic (prev : List Message) (optimisticMessage : Message) :
    List Message :=
  prev ++ [optimisticMessage]

/-- Reconciliation of an optimistic send, Chat.tsx lines 1171-1173:
`setMessages(prev => prev.map(msg => msg.id === tempId ? data : msg))`. -/
def reconcile (prev : List Message) (tempId : String) (data : Message) :
    List Message :=
  prev.map (fun msg => if msg.id == tempId then data else msg)

/-- A concrete pending (optimistic) message used as test data. -/
def pendingMsg : Message :=
  { id := "temp-1", chat_id := "c", sender_id := "u", content := some "hi",
    created_at := 0, media_url := none, media_type := none }

/-- The confirmed (database) copy of `pendingMsg`. -/
def confirmedMsg : Message :=
  { id := "m1", chat_id := "c", sender_id := "u", content := some "hi",
    created_at := 0, media_url := none, media_type := none }

section MessageStoreLemmas

lemma map_eq_self_of_forall {f : Message → Message} {l : List Message}
    (h : ∀ x ∈ l, f x = x) : l.map f = l := by
  induction l with
  | nil => rfl
  | cons a t ih =>
      simp only [List.map_cons]
      rw [h a (by simp), ih (fun x hx => h x (by simp [hx]))]

lemma filter_eq_self_of_forall {p : Message → Bool} {l : List Message}
    (h : ∀ x ∈ l, p x = true) : l.filter p = l :=
  List.filter_eq_self.mpr h

lemma any_id_eq_false_iff {l : List Message} {s : String} :
    l.any (fun msg => msg.id == s) = false ↔ ∀ x ∈ l, x.id ≠ s := by
  simp [List.any_eq_false]

/-- `applyRemoteInsert` preserves distinctness of ids. -/
lemma applyRemoteInsert_nodup {l : List Message} {m : Message}
    (h : (ids l).Nodup) : (ids (applyRemoteInsert l m)).Nodup := by
  unfold applyRemoteInsert
  by_cases hp : l.any (fun msg => msg.id == m.id) = true
  · simpa [hp] using h
  · have hfresh : ∀ x ∈ l, x.id ≠ m.id :=
      any_id_eq_false_iff.mp (Bool.eq_false_iff.mpr hp)
    simp only [hp, if_false, Bool.false_eq_true]
    simp only [ids, List.map_append, List.map_cons, List.map_nil]
    rw [List.nodup_append]
    refine ⟨h, List.nodup_singleton _, ?_⟩
    intro a ha hb
    simp only [List.mem_singleton] at hb
    obtain ⟨x, hx, rfl⟩ := List.mem_map.mp ha
    exact hfresh x hx hb

/-- `applyRemoteDelete` preserves distinctness of ids. -/
lemma applyRemoteDelete_nodup {l : List Message} {s : String}
    (h : (ids l).Nodup) : (ids (applyRemoteDelete l s)).Nodup := by
  unfold applyRemoteDelete ids
  exact h.sublist (List.Sublist.map _ (List.filter_sublist l))

lemma mem_ids_iff {l : List Message} {s : String} :
    s ∈ ids l ↔ ∃ x ∈ l, x.id = s := by
  simp [ids, List.mem_map, eq_comm]

/-- Reconciliation with a fresh tempId at the tail replaces exactly the
optimistic entry. -/
lemma reconcile_append_fresh {l : List Message} {draft confirmed : Message}
    {tempId : String} (hdraft : draft.id = tempId) (htemp : tempId ∉ ids l) :
    reconcile (appendOptimistic l draft) tempId confirmed =
      l ++ [confirmed] := by
  unfold reconcile appendOptimistic
  rw [List.map_append]
  have h1 : l.map (fun msg => if msg.id == tempId then confirmed else msg)
      = l := by
    apply map_eq_self_of_forall
    intro x hx
    have hne : x.id ≠ tempId := by
      intro hcontra
      exact htemp (mem_ids_iff.mpr ⟨x, hx, hcontra⟩)
    simp [hne]
  have h2 : [draft].map (fun msg => if msg.id == tempId then confirmed
      else msg) = [confirmed] := by
    simp [hdraft]
  rw [h1, h2]

end MessageStoreLemmas

/-- C1 counterexample: starting from an empty store, `appendOptimistic`
of the pending draft (tempId "temp-1"), then arrival of the remote copy of
the same insert (id "m1") through `applyRemoteInsert`, then
`reconcile("temp-1", confirmed)` leaves the list with TWO entries whose id
is "m1": the reconciliation map does not check whether the confirmed id is
already present, so the claimed uniqueness fails. -/
theorem reconcile_race_duplicates_confirmed_id :
    (reconcile (applyRemoteInsert (appendOptimistic [] pendingMsg)
        confirmedMsg) "temp-1" confirmedMsg).countP
      (fun x => x.id == "m1") = 2 ∧
    ¬ (ids (reconcile (applyRemoteInsert (appendOptimistic [] pendingMsg)
        confirmedMsg) "temp-1" confirmedMsg)).Nodup := by
  constructor
  · rfl
  · decide

/-- C1 (amended): sequences of `applyRemoteInsert` and `applyRemoteDelete`
preserve uniqueness of ids, and `appendOptimistic(draft)` followed by
`reconcile(tempId, confirmed)` yields exactly one list entry for the
logical message PROVIDED no remote-delivered copy of the same insert
arrived between the two calls (the fresh-id hypotheses); with such an
intervening copy the reconciliation duplicates the confirmed id. -/
theorem store_unique_ids_and_reconcile_without_race
    (l : List Message) (m draft confirmed : Message) (s tempId : String)
    (hnd : (ids l).Nodup)
    (hdraft : draft.id = tempId)
    (htemp : tempId ∉ ids l)
    (hconf : confirmed.id ∉ ids l) :
    (ids (applyRemoteInsert l m)).Nodup ∧
    (ids (applyRemoteDelete l s)).Nodup ∧
    reconcile (appendOptimistic l draft) tempId confirmed =
      l ++ [confirmed] ∧
    (reconcile (appendOptimistic l draft) tempId confirmed).countP
      (fun x => x.id == confirmed.id) = 1 ∧
    (ids (reconcile (appendOptimistic l draft) tempId confirmed)).Nodup := by
  have hrec := @reconcile_append_fresh l draft confirmed tempId hdraft htemp
  refine ⟨applyRemoteInsert_nodup hnd, applyRemoteDelete_nodup hnd, hrec,
    ?_, ?_⟩
  · rw [hrec, List.countP_append]
    have hzero : l.countP (fun x => x.id == confirmed.id) = 0 := by
      rw [List.countP_eq_zero]
      intro x hx
      have hne : x.id ≠ confirmed.id := by
        intro hcontra
        exact hconf (mem_ids_iff.mpr ⟨x, hx, hcontra⟩)
      simp [hne]
    rw [hzero]
    simp
  · rw [hrec]
    simp only [ids, List.map_append, List.map_cons, List.map_nil]
    rw [List.nodup_append]
    refine ⟨hnd, List.nodup_singleton _, ?_⟩
    intro a ha hb
    simp only [List.mem_singleton] at hb
    subst hb
    exact hconf ha

/-- Witness for the C1 amended theorem at a concrete input. -/
theorem store_unique_ids_and_reconcile_without_race_w :
    (ids ([] : List Message)).Nodup ∧
    pendingMsg.id = "temp-1" ∧
    "temp-1" ∉ ids ([] : List Message) ∧
    confirmedMsg.id ∉ ids ([] : List Message) ∧
    reconcile (appendOptimistic [] pendingMsg) "temp-1" confirmedMsg =
      [] ++ [confirmedMsg] ∧
    (reconcile (appendOptimistic [] pendingMsg) "temp-1"
      confirmedMsg).countP (fun x => x.id == confirmedMsg.id) = 1 := by
  have h := store_unique_ids_and_reconcile_without_race [] confirmedMsg
    pendingMsg confirmedMsg "z" "temp-1" (by decide) (by decide)
    (by decide) (by decide)
  exact ⟨by decide, by decide, by decide, by decide, h.2.2.1, h.2.2.2.1⟩

/-- C2 counterexample: with only the pending optimistic entry in the list,
`applyRemoteDelete "m1"` (the delete arriving before confirmation) is a
no-op — there is no tombstone set in the code — and the subsequent
`reconcile("temp-1", confirmed)` inserts the confirmed message: the final
list is exactly `[confirmedMsg]`, so the deleted message DOES reappear,
refuting the claimed delete-wins ordering. -/
theorem delete_then_reconcile_resurrects :
    reconcile (applyRemoteDelete [pendingMsg] "m1") "temp-1" confirmedMsg
      = [confirmedMsg] ∧
    (reconcile (applyRemoteDelete [pendingMsg] "m1") "temp-1"
      confirmedMsg).any (fun x => x.id == "m1") = true := by
  constructor
  · rfl
  · rfl

/-- C2 (amended): the code keeps no tombstone set, so a deletion does NOT
win over a later reconciliation: whenever a pending entry with `tempId` is
in the list and `applyRemoteDelete confirmed.id` runs before
`reconcile(tempId, confirmed)`, the confirmed message ends up in the list. -/
theorem delete_does_not_win_over_late_reconcile
    (l : List Message) (tempId : String) (confirmed : Message)
    (hmem : tempId ∈ ids l) (hne : tempId ≠ confirmed.id) :
    (reconcile (applyRemoteDelete l confirmed.id) tempId confirmed).any
      (fun x => x.id == confirmed.id) = true := by
  obtain ⟨x, hx, hxid⟩ := mem_ids_iff.mp hmem
  rw [List.any_eq_true]
  refine ⟨confirmed, ?_, by simp⟩
  unfold reconcile applyRemoteDelete
  apply List.mem_map.mpr
  refine ⟨x, ?_, by simp [hxid]⟩
  apply List.mem_filter.mpr
  refine ⟨hx, ?_⟩
  rw [hxid]
  simp [hne]

/-- Connection status exposed to the UI (Chat.tsx line 76). -/
inductive ConnStatus
  | connecting
  | connected
  | disconnected
  deriving Repr, DecidableEq

/-- The initial-mount retry loop of `initializeChat` (Chat.tsx lines
744-763).  `outcomes` lists the success/failure of each consecutive
attempt; the second argument is the running `initializationAttempts`
counter.  On a failure the counter is incremented FIRST, then if it is
still below `maxAttempts = 3` a retry is scheduled after
`min(1000 * 2 ^ attempts, 10000)` ms, otherwise the status is set to
`disconnected`.  Returns the list of scheduled delays and the status set
by the loop itself (`none` when the loop exits without setting one). -/
def initializeChatRun : List Bool → Nat → List Nat × Option ConnStatus
  | [], _ => ([], none)
  | ok :: rest, attempts =>
    if ok then ([], none)
    else
      let attempts1 := attempts + 1
      if attempts1 < 3 then
        let delay := min (1000 * 2 ^ attempts1) 10000
        let r := initializeChatRun rest attempts1
        (delay :: r.1, r.2)
      else ([], some ConnStatus.disconnected)

/-- C3 counterexample: three consecutive failed attempts from a fresh
mount schedule delays 2000 ms and 4000 ms — not the claimed 1000, 2000,
4000 — because the attempt counter is incremented before the delay is
computed, so the backoff starts at 2 s and only two retries happen. -/
theorem initial_backoff_is_2s_4s_not_1s_2s_4s :
    initializeChatRun [false, false, false] 0 =
      ([2000, 4000], some ConnStatus.disconnected) ∧
    ([2000, 4000] : List Nat) ≠ [1000, 2000, 4000] := by
  constructor
  · rfl
  · decide

/-- C3 (amended): during initial mount, three consecutive failed attempts
produce retry delays of 2 s and 4 s (after the first and second failures;
formula `min(1000 * 2 ^ failures, 10000)` with the counter incremented
before the delay is computed), after which the supervisor stops retrying
and the UI connection status is set to `disconnected`, regardless of what
would have happened on later attempts. -/
theorem initial_backoff_two_delays_then_disconnected (rest : List Bool) :
    initializeChatRun (false :: false :: false :: rest) 0 =
      ([2000, 4000], some ConnStatus.disconnected) := rfl

/-- Presence transitions triggered by the tab registry. -/
inductive PresenceEvent
  | wentOnline
  | wentOffline
  deriving Repr, DecidableEq

/-- Local multi-tab presence state: the `active_tabs` localStorage keys,
the local `isOnline` flag and whether the heartbeat interval is running
(Chat.tsx `onlineStatusRef`). -/
structure TabsState where
  tabs : List String
  localOnline : Bool
  heartbeatRunning : Bool
  deriving Repr, DecidableEq

/-- `tabs[tabId] = Date.now()`: object-key insertion (idempotent on the
key). -/
def insertTab (tabs : List String) (tabId : String) : List String :=
  if tabs.contains tabId then tabs else tabs ++ [tabId]

/-- `delete tabs[tabId]`: object-key removal. -/
def removeTab (tabs : List String) (tabId : String) : List String :=
  tabs.filter (fun t => t != tabId)

/-- `updateTabCount` (Chat.tsx lines 287-317): adjust the registry, then
if this registration made the count 1 go online and start the heartbeat;
if this unregistration made the count 0 go offline and stop the
heartbeat; otherwise leave presence untouched. -/
def updateTabCount (s : TabsState) (tabId : String) (increment : Bool) :
    TabsState × List PresenceEvent :=
  let tabs1 := if increment then insertTab s.tabs tabId
    else removeTab s.tabs tabId
  if increment && tabs1.length == 1 then
    ({ tabs := tabs1, localOnline := true, heartbeatRunning := true },
      [PresenceEvent.wentOnline])
  else if !increment && tabs1.length == 0 then
    ({ tabs := tabs1, localOnline := false, heartbeatRunning := false },
      [PresenceEvent.wentOffline])
  else
    ({ s with tabs := tabs1 }, [])

/-- C4: from an initially offline user with an empty registry, the
sequence register(A), register(B), unregister(A), unregister(B) with
A ≠ B produces exactly two presence transitions — offline→online at the
first registration (count 0→1, heartbeat started) and online→offline at
the last unregistration (count 1→0, heartbeat stopped) — while the two
middle calls change no presence state. -/
theorem tab_sequence_two_presence_transitions (A B : String) (h : A ≠ B) :
    (updateTabCount ⟨[], false, false⟩ A true).2 =
        [PresenceEvent.wentOnline] ∧
    (updateTabCount ⟨[], false, false⟩ A true).1 = ⟨[A], true, true⟩ ∧
    (updateTabCount ⟨[A], true, true⟩ B true).2 = [] ∧
    (updateTabCount ⟨[A], true, true⟩ B true).1 = ⟨[A, B], true, true⟩ ∧
    (updateTabCount ⟨[A, B], true, true⟩ A false).2 = [] ∧
    (updateTabCount ⟨[A, B], true, true⟩ A false).1 = ⟨[B], true, true⟩ ∧
    (updateTabCount ⟨[B], true, true⟩ B false).2 =
        [PresenceEvent.wentOffline] ∧
    (updateTabCount ⟨[B], true, true⟩ B false).1 =
        ⟨[], false, false⟩ := by
  have hAB : (A == B) = false := beq_eq_false_iff_ne.mpr h
  have hBA : (B == A) = false := beq_eq_false_iff_ne.mpr (Ne.symm h)
  have hBA' : B ≠ A := Ne.symm h
  refine ⟨?_, ?_, ?_, ?_, ?_, ?_, ?_, ?_⟩ <;>
    simp [updateTabCount, insertTab, removeTab, List.contains, hAB, hBA,
      h, hBA']

/-- Witness for the C4 theorem at concrete distinct tab ids. -/
theorem tab_sequence_two_presence_transitions_w :
    "a" ≠ "b" ∧
    (updateTabCount ⟨[], false, false⟩ "a" true).2 =
        [PresenceEvent.wentOnline] ∧
    (updateTabCount ⟨["a"], true, true⟩ "b" true).2 = [] ∧
    (updateTabCount ⟨["a", "b"], true, true⟩ "a" false).2 = [] ∧
    (updateTabCount ⟨["b"], true, true⟩ "b" false).2 =
        [PresenceEvent.wentOffline] := by
  have h := tab_sequence_two_presence_transitions "a" "b" (by decide)
  exact ⟨by decide, h.1, h.2.2.1, h.2.2.2.2.1, h.2.2.2.2.2.2.1⟩

/-- The cross-tab deletion handler (Chat.tsx lines 963-984): a deletion
record `{chatId, messageId}` delivered via the storage event or the
`messageDeleted` custom event removes the message when the record is for
this chat. -/
def crossTabApplyDeletion (chatId : String) (prev : List Message)
    (dChatId dMessageId : String) : List Message :=
  if dChatId == chatId then prev.filter (fun m => m.id != dMessageId)
  else prev

section IdempotenceLemmas

lemma filter_ne_idem (l : List Message) (s : String) :
    (l.filter (fun m => m.id != s)).filter (fun m => m.id != s) =
      l.filter (fun m => m.id != s) := by
  apply filter_eq_self_of_forall
  intro x hx
  exact (List.mem_filter.mp hx).2

lemma length_le_filter_ne_add_one {l : List Message} {s : String}
    (hnd : (ids l).Nodup) :
    l.length ≤ (l.filter (fun m => m.id != s)).length + 1 := by
  induction l with
  | nil => simp
  | cons a t ih =>
      rw [ids, List.map_cons, List.nodup_cons] at hnd
      obtain ⟨hnotin, hndt⟩ := hnd
      by_cases hid : a.id = s
      · have hall : t.filter (fun m => m.id != s) = t := by
          apply filter_eq_self_of_forall
          intro x hx
          have hne : x.id ≠ s := by
            intro hc
            exact hnotin (by
              rw [hid]
              exact mem_ids_iff.mpr ⟨x, hx, hc⟩)
          simp [hne]
        simp only [List.filter_cons, hid, bne_self_eq_false,
          Bool.false_eq_true, if_false, hall, List.length_cons]
        omega
      · have ht := ih hndt
        simp only [List.filter_cons, bne_iff_ne, ne_eq, hid,
          not_false_eq_true, if_true, List.length_cons]
        omega

end IdempotenceLemmas

/-- C7: the remote event handlers are idempotent — a second
`applyRemoteInsert` of the same message is a no-op, a second
`applyRemoteDelete` (and a second delivery of the same cross-tab deletion
record) is a no-op — and, on a list with distinct ids,
`applyRemoteDelete` removes at most one entry. -/
theorem remote_handlers_idempotent (l : List Message) (m : Message)
    (chatId dChatId s : String) (hnd : (ids l).Nodup) :
    applyRemoteInsert (applyRemoteInsert l m) m = applyRemoteInsert l m ∧
    applyRemoteDelete (applyRemoteDelete l s) s = applyRemoteDelete l s ∧
    crossTabApplyDeletion chatId
        (crossTabApplyDeletion chatId l dChatId s) dChatId s =
      crossTabApplyDeletion chatId l dChatId s ∧
    l.length ≤ (applyRemoteDelete l s).length + 1 := by
  refine ⟨?_, filter_ne_idem l s, ?_, length_le_filter_ne_add_one hnd⟩
  · by_cases hp : l.any (fun msg => msg.id == m.id) = true
    · simp [applyRemoteInsert, hp]
    · simp only [Bool.not_eq_true] at hp
      simp [applyRemoteInsert, hp, List.any_append]
  · unfold crossTabApplyDeletion
    by_cases hc : (dChatId == chatId) = true
    · simp [hc, filter_ne_idem]
    · simp only [Bool.not_eq_true] at hc
      simp [hc]

/-- Witness for the C7 theorem at a concrete input. -/
theorem remote_handlers_idempotent_w :
    (ids [pendingMsg]).Nodup ∧
    applyRemoteInsert (applyRemoteInsert [pendingMsg] confirmedMsg)
        confirmedMsg = applyRemoteInsert [pendingMsg] confirmedMsg ∧
    applyRemoteDelete (applyRemoteDelete [pendingMsg] "temp-1") "temp-1" =
      applyRemoteDelete [pendingMsg] "temp-1" ∧
    [pendingMsg].length ≤
      (applyRemoteDelete [pendingMsg] "temp-1").length + 1 := by
  have h := remote_handlers_idempotent [pendingMsg] confirmedMsg "c" "c"
    "temp-1" (by decide)
  exact ⟨by decide, h.1, h.2.1, h.2.2.2⟩

/-- The presence fields of a `profiles` row. -/
structure PresenceRecord where
  is_online : Bool
  last_seen : Option Int
  last_heartbeat : Option Int
  deriving Repr, DecidableEq

/-- The update payload built by `updateOnlineStatus` (Chat.tsx 167-171):
online writes `{is_online: true, last_seen: null, last_heartbeat: now}`,
offline writes `{is_online: false, last_seen: now, last_heartbeat:
null}`. -/
def updateOnlineStatusData (isOnline : Bool) (now : Int) : PresenceRecord :=
  { is_online := isOnline,
    last_seen := if isOnline then none else some now,
    last_heartbeat := if isOnline then some now else none }

/-- The offline payload written by `cleanupAndGoOffline` (Chat.tsx
801-808). -/
def cleanupOfflineData (now : Int) : PresenceRecord :=
  { is_online := false, last_seen := some now, last_heartbeat := none }

/-- `checkHeartbeatStatus` (Chat.tsx 256-280): read the authoritative
record (a failed read is caught and logged); when it carries a heartbeat
timestamp older than 35 s while marked online, force an offline write via
`updateOnlineStatus(false)`.  Returns the resulting record and whether an
offline write was attempted. -/
def checkHeartbeatStatus (readOk writeOk : Bool) (db : PresenceRecord)
    (now : Int) : PresenceRecord × Bool :=
  if !readOk then (db, false)
  else match db.last_heartbeat with
    | none => (db, false)
    | some lastHeartbeat =>
      if now - lastHeartbeat > 35000 ∧ db.is_online = true then
        if writeOk then (updateOnlineStatusData false now, true)
        else (db, true)
      else (db, false)

/-- Outcome flags for the network calls inside one heartbeat tick: does
the status read succeed, does a re-assert write succeed, and does the
heartbeat update succeed (failure = the awaited call throws and is
caught by the surrounding try/catch). -/
structure HeartbeatEnv where
  readOk : Bool
  reassertOk : Bool
  writeOk : Bool
  deriving Repr, DecidableEq

/-- Database writes observable during a heartbeat tick. -/
inductive HWrite
  | statusWrite (isOnline : Bool)
  | heartbeatWrite
  deriving Repr, DecidableEq

/-- Presence state as seen by one tab: the authoritative record plus the
local flags of `onlineStatusRef`, and a flag recording whether any
user-visible error was surfaced (the heartbeat code only logs, so it
never sets it). -/
structure HState where
  db : PresenceRecord
  localOnline : Bool
  localLastHeartbeat : Int
  uiError : Bool
  deriving Repr, DecidableEq

/-- `updateOnlineStatus` (Chat.tsx 163-187) acting on the tab state, with
an explicit success flag: on success the record takes the two-shape
payload and the local flag is synced; on failure the error is logged and
nothing changes. -/
def updateOnlineStatusRun (ok : Bool) (isOnline : Bool) (now : Int)
    (s : HState) : HState × List HWrite :=
  if ok then
    ({ s with
        db := updateOnlineStatusData isOnline now
        localOnline := isOnline }, [HWrite.statusWrite isOnline])
  else (s, [])

/-- One periodic `sendHeartbeat()` call (Chat.tsx 196-236 with
isInitial=false): bail out when the local flag is offline; read the
authoritative record (a throw is caught and logged, ending the tick); if
the record says offline while the local flag says online, re-assert
online through `updateOnlineStatus` (which swallows its own failures);
then write a fresh heartbeat timestamp together with `is_online: true`
(a throw is caught and only logged). -/
def sendHeartbeatTick (env : HeartbeatEnv) (s : HState) (now : Int) :
    HState × List HWrite :=
  if !s.localOnline then (s, [])
  else if !env.readOk then (s, [])
  else
    let r1 := if s.localOnline && !s.db.is_online then
        updateOnlineStatusRun env.reassertOk true now s
      else (s, [])
    if env.writeOk then
      ({ r1.1 with
          db := { r1.1.db with
            last_heartbeat := some now
            is_online := true }
          localLastHeartbeat := now },
        r1.2 ++ [HWrite.heartbeatWrite])
    else r1

/-- A concrete online tab state used by the presence witnesses. -/
def hbS0 : HState :=
  { db := { is_online := true, last_seen := none, last_heartbeat := some 0 },
    localOnline := true, localLastHeartbeat := 0, uiError := false }

/-- C5: on an online record whose heartbeat is more than 35 s old,
`checkHeartbeatStatus` performs the offline write exactly once — the
resulting record is the offline two-shape payload — and a second call
with no intervening heartbeat performs no additional write and leaves
the record unchanged. -/
theorem liveness_check_writes_offline_once (db : PresenceRecord)
    (t now now' : Int) (hon : db.is_online = true)
    (hhb : db.last_heartbeat = some t) (hage : now - t > 35000) :
    (checkHeartbeatStatus true true db now).2 = true ∧
    (checkHeartbeatStatus true true db now).1 =
      updateOnlineStatusData false now ∧
    (checkHeartbeatStatus true true db now).1.is_online = false ∧
    (checkHeartbeatStatus true true
        (checkHeartbeatStatus true true db now).1 now').2 = false ∧
    (checkHeartbeatStatus true true
        (checkHeartbeatStatus true true db now).1 now').1 =
      (checkHeartbeatStatus true true db now).1 := by
  simp [checkHeartbeatStatus, hhb, hage, hon, updateOnlineStatusData]

/-- Witness for the C5 theorem at a concrete input. -/
theorem liveness_check_writes_offline_once_w :
    hbS0.db.is_online = true ∧ hbS0.db.last_heartbeat = some 0 ∧
    ((36000 : Int) - 0 > 35000) ∧
    (checkHeartbeatStatus true true hbS0.db 36000).2 = true ∧
    (checkHeartbeatStatus true true
        (checkHeartbeatStatus true true hbS0.db 36000).1 70000).2 =
      false := by
  have h := liveness_check_writes_offline_once hbS0.db 0 36000 70000
    (by decide) (by decide) (by decide)
  exact ⟨by decide, by decide, by decide, h.1, h.2.2.2.1⟩

/-- C6: a periodic heartbeat tick while locally online (a) under
successful read and write leaves the record with a fresh heartbeat
timestamp and `is_online = true`; (b) when the record reports offline
while the local flag says online, the first write of the tick re-asserts
online (self-healing); (c) a failed heartbeat write on an agreeing
record changes nothing — it is only logged, never escalated — and the
next all-successful tick writes the fresh timestamp; the tick never
touches the user-visible error flag. -/
theorem heartbeat_tick_behaviour (env : HeartbeatEnv) (s : HState)
    (now now' : Int) (hon : s.localOnline = true) :
    (env.readOk = true → env.writeOk = true →
      (sendHeartbeatTick env s now).1.db.last_heartbeat = some now ∧
      (sendHeartbeatTick env s now).1.db.is_online = true) ∧
    (env.readOk = true → env.reassertOk = true →
      s.db.is_online = false →
      (sendHeartbeatTick env s now).2.head? =
        some (HWrite.statusWrite true)) ∧
    (env.readOk = true → env.writeOk = false → s.db.is_online = true →
      sendHeartbeatTick env s now = (s, [])) ∧
    (sendHeartbeatTick env s now).1.uiError = s.uiError ∧
    ((sendHeartbeatTick ⟨true, true, true⟩
        (sendHeartbeatTick env s now).1 now').1.db.last_heartbeat =
      some now') := by
  obtain ⟨ro, ao, wo⟩ := env
  cases ro <;> cases ao <;> cases wo <;> cases hdb : s.db.is_online <;>
    simp [sendHeartbeatTick, updateOnlineStatusRun,
      updateOnlineStatusData, hon, hdb]

/-- Witness for the C6 theorem at a concrete input. -/
theorem heartbeat_tick_behaviour_w :
    hbS0.localOnline = true ∧
    (sendHeartbeatTick ⟨true, true, true⟩ hbS0 20000).1.db.last_heartbeat
      = some 20000 ∧
    (sendHeartbeatTick ⟨true, true, true⟩ hbS0 20000).1.uiError =
      hbS0.uiError := by
  have h := heartbeat_tick_behaviour ⟨true, true, true⟩ hbS0 20000 40000
    rfl
  exact ⟨rfl, (h.1 rfl rfl).1, h.2.2.2.1⟩

/-- C9: every write issued through `updateOnlineStatus` is one of two
shapes — online: `{is_online: true, last_seen: null, last_heartbeat:
now}`; offline: `{is_online: false, last_seen: now, last_heartbeat:
null}` — the `cleanupAndGoOffline` payload coincides with the offline
shape, and after any successful `updateOnlineStatus` write,
`is_online = true` implies `last_seen = null`. -/
theorem presence_write_two_shapes (b : Bool) (now : Int) (s : HState) :
    updateOnlineStatusData true now =
      { is_online := true, last_seen := none,
        last_heartbeat := some now } ∧
    updateOnlineStatusData false now =
      { is_online := false, last_seen := some now,
        last_heartbeat := none } ∧
    cleanupOfflineData now = updateOnlineStatusData false now ∧
    ((updateOnlineStatusRun true b now s).1.db.is_online = true →
      (updateOnlineStatusRun true b now s).1.db.last_seen = none) := by
  cases b <;>
    simp [updateOnlineStatusData, cleanupOfflineData,
      updateOnlineStatusRun]

/-- Witness for the C9 theorem at a concrete input. -/
theorem presence_write_two_shapes_w :
    (updateOnlineStatusRun true true 7 hbS0).1.db.is_online = true ∧
    (updateOnlineStatusRun true true 7 hbS0).1.db.last_seen = none :=
  ⟨by decide, (presence_write_two_shapes true 7 hbS0).2.2.2 (by decide)⟩

/-- `prev[targetChatId] || 0` on the unread-count object, modelled as an
association list in key-insertion order. -/
def getUnread (u : List (String × Nat)) (c : String) : Nat :=
  match u.find? (fun p => p.1 == c) with
  | some p => p.2
  | none => 0

/-- `{...prev, [targetChatId]: n}`: object spread with key override — an
existing key keeps its position, a new key is appended. -/
def setUnread (u : List (String × Nat)) (c : String) (n : Nat) :
    List (String × Nat) :=
  if u.any (fun p => p.1 == c) then
    u.map (fun p => if p.1 == c then (c, n) else p)
  else u ++ [(c, n)]

/-- `incrementUnreadCount` (Chat.tsx 472-499): bail out on a falsy chat
id or a missing profile, skip the sender's own messages, otherwise bump
the target chat's counter. -/
def incrementUnreadCount (profileId : Option String)
    (u : List (String × Nat)) (targetChatId : String)
    (message : Option Message) : List (String × Nat) :=
  match profileId with
  | none => u
  | some pid =>
    if targetChatId = "" then u
    else if (match message with
      | some m => m.sender_id == pid
      | none => false) then u
    else setUnread u targetChatId (getUnread u targetChatId + 1)

/-- Does `pat` occur as a leading block of `s` (character lists)? -/
def charsLeadOf : List Char → List Char → Bool
  | [], _ => true
  | _ :: _, [] => false
  | a :: as, b :: bs => a == b && charsLeadOf as bs

/-- Does `pat` occur as a contiguous block of `s` (character lists)? -/
def charsInfixOf : List Char → List Char → Bool
  | pat, [] => pat.isEmpty
  | pat, c :: rest => charsLeadOf pat (c :: rest) || charsInfixOf pat rest

/-- `pathname.includes(pat)`: substring containment. -/
def includesStr (s pat : String) : Bool := charsInfixOf pat.data s.data

/-- Per-channel consumer state: the message list plus the unread-count
mapping. -/
structure ChannelState where
  messages : List Message
  unread : List (String × Nat)
  deriving Repr, DecidableEq

/-- The full realtime INSERT handler (Chat.tsx 671-691): skip when the
id is already present; otherwise, when the current URL path does not
show this chat and the sender is not the local user, bump the chat's
unread counter; append the message. -/
def onInsertEvent (chatId profileId pathname : String)
    (st : ChannelState) (newMessage : Message) : ChannelState :=
  if st.messages.any (fun msg => msg.id == newMessage.id) then st
  else
    let isViewingThisChat := includesStr pathname ("/chat/" ++ chatId)
    let unread1 :=
      if !isViewingThisChat && newMessage.sender_id != profileId then
        incrementUnreadCount (some profileId) st.unread chatId
          (some newMessage)
      else st.unread
    { messages := st.messages ++ [newMessage], unread := unread1 }

section UnreadLemmas

lemma getUnread_map_replace (u : List (String × Nat)) (c : String)
    (n : Nat) (c' : String) (h : c' ≠ c) :
    getUnread (u.map (fun p => if p.1 == c then (c, n) else p)) c' =
      getUnread u c' := by
  induction u with
  | nil => rfl
  | cons p t ih =>
      by_cases hp : p.1 = c
      · have hc' : (c == c') = false :=
          beq_eq_false_iff_ne.mpr (Ne.symm h)
        have hp' : (p.1 == c') = false := by
          rw [hp]
          exact hc'
        simp only [List.map_cons, hp, if_pos rfl, beq_self_eq_true,
          if_true, getUnread, List.find?]
        rw [hc', hp'] at *
        simpa [getUnread] using ih
      · have hpb : (p.1 == c) = false := beq_eq_false_iff_ne.mpr hp
        by_cases hq : p.1 = c'
        · have hqb : (p.1 == c') = true := beq_iff_eq.mpr hq
          simp only [List.map_cons, hpb, Bool.false_eq_true, if_false]
          simp [getUnread, List.find?, hqb]
        · have hqb : (p.1 == c') = false := beq_eq_false_iff_ne.mpr hq
          simp only [List.map_cons, hpb, Bool.false_eq_true, if_false,
            getUnread, List.find?, hqb] at *
          exact ih

lemma getUnread_append_single_other (u : List (String × Nat))
    (c : String) (n : Nat) (c' : String) (h : c' ≠ c) :
    getUnread (u ++ [(c, n)]) c' = getUnread u c' := by
  induction u with
  | nil =>
      have hc' : (c == c') = false := beq_eq_false_iff_ne.mpr (Ne.symm h)
      simp [getUnread, List.find?, hc']
  | cons p t ih =>
      by_cases hq : p.1 = c'
      · have hqb : (p.1 == c') = true := beq_iff_eq.mpr hq
        simp [getUnread, List.find?, hqb]
      · have hqb : (p.1 == c') = false := beq_eq_false_iff_ne.mpr hq
        simp only [List.cons_append, getUnread, List.find?, hqb] at *
        exact ih

lemma getUnread_setUnread_same (u : List (String × Nat)) (c : String)
    (n : Nat) : getUnread (setUnread u c n) c = n := by
  unfold setUnread
  by_cases ha : u.any (fun p => p.1 == c) = true
  · rw [if_pos ha]
    induction u with
    | nil => simp at ha
    | cons p t ih =>
        by_cases hp : p.1 = c
        · simp [getUnread, List.find?, hp]
        · have hpb : (p.1 == c) = false := beq_eq_false_iff_ne.mpr hp
          simp only [List.any_cons, hpb, Bool.false_or] at ha
          simp only [List.map_cons, hpb, Bool.false_eq_true, if_false,
            getUnread, List.find?, hpb]
          simpa [getUnread] using ih ha
  · rw [if_neg ha]
    rw [Bool.not_eq_true] at ha
    have hnone : u.find? (fun p => p.1 == c) = none := by
      rw [List.find?_eq_none]
      intro p hp
      have := List.any_eq_false.mp ha p hp
      simpa using this
    induction u with
    | nil => simp [getUnread, List.find?]
    | cons p t ih =>
        simp only [List.find?] at hnone
        by_cases hp : (p.1 == c) = true
        · rw [hp] at hnone
          simp at hnone
        · have hpb : (p.1 == c) = false := Bool.eq_false_iff.mpr hp
          rw [hpb] at hnone
          simp only [List.any_cons, hpb, Bool.false_or] at ha
          simp only [List.cons_append, getUnread, List.find?, hpb]
          simpa [getUnread] using ih ha hnone

lemma getUnread_setUnread_other (u : List (String × Nat)) (c : String)
    (n : Nat) (c' : String) (h : c' ≠ c) :
    getUnread (setUnread u c n) c' = getUnread u c' := by
  unfold setUnread
  by_cases ha : u.any (fun p => p.1 == c) = true
  · rw [if_pos ha]
    exact getUnread_map_replace u c n c' h
  · rw [if_neg ha]
    exact getUnread_append_single_other u c n c' h

end UnreadLemmas

/-- C8: for a newly delivered insert whose id is not yet in the list,
the INSERT handler bumps the unread counter of the message's chat by one
exactly when the current URL path does not contain `/chat/<chatId>` and
the sender is not the local user (other chats' counters untouched); in
every other case the unread mapping is unchanged. -/
theorem unread_increment_iff_not_viewing_and_foreign
    (chatId profileId pathname : String) (st : ChannelState)
    (msg : Message) (hchat : chatId ≠ "")
    (hfresh : st.messages.any (fun m => m.id == msg.id) = false)
    (_hc : msg.chat_id = chatId) :
    (includesStr pathname ("/chat/" ++ chatId) = false →
      msg.sender_id ≠ profileId →
      getUnread (onInsertEvent chatId profileId pathname st msg).unread
          chatId = getUnread st.unread chatId + 1 ∧
      (∀ c, c ≠ chatId →
        getUnread (onInsertEvent chatId profileId pathname st msg).unread
          c = getUnread st.unread c)) ∧
    ((includesStr pathname ("/chat/" ++ chatId) = true ∨
        msg.sender_id = profileId) →
      (onInsertEvent chatId profileId pathname st msg).unread =
        st.unread) := by
  constructor
  · intro hview hsender
    have hsb : (msg.sender_id == profileId) = false :=
      beq_eq_false_iff_ne.mpr hsender
    simp only [onInsertEvent, hfresh, Bool.false_eq_true, if_false,
      hview, Bool.not_false, hsb, bne, Bool.not_false, Bool.true_and,
      incrementUnreadCount, hchat, if_neg hchat]
    constructor
    · exact getUnread_setUnread_same st.unread chatId _
    · intro c hcne
      exact getUnread_setUnread_other st.unread chatId _ c hcne
  · intro hcase
    rcases hcase with hview | hsender
    · simp [onInsertEvent, hfresh, hview]
    · have hsb : (msg.sender_id == profileId) = true :=
        beq_iff_eq.mpr hsender
      simp [onInsertEvent, hfresh, hsb, bne]

/-- A concrete remote message for the C8 witness. -/
def msg9 : Message :=
  { id := "m9", chat_id := "c1", sender_id := "other",
    content := some "yo", created_at := 0, media_url := none,
    media_type := none }

/-- Witness for the C8 theorem at a concrete input. -/
theorem unread_increment_iff_not_viewing_and_foreign_w :
    getUnread (onInsertEvent "c1" "me" "/home" ⟨[], []⟩ msg9).unread "c1"
      = 1 ∧
    getUnread (onInsertEvent "c1" "me" "/home" ⟨[], []⟩ msg9).unread "c2"
      = 0 := by
  have h := unread_increment_iff_not_viewing_and_foreign "c1" "me"
    "/home" ⟨[], []⟩ msg9 (by decide) (by rfl) (by rfl)
  obtain ⟨h1, h2⟩ := h.1 (by rfl) (by decide)
  constructor
  · rw [h1]
    rfl
  · rw [h2 "c2" (by decide)]
    rfl

/-- A cross-tab deletion record (Chat.tsx 1359-1364). -/
structure DeletionEvent where
  chatId : String
  messageId : String
  timestamp : Int
  deriving Repr, DecidableEq

/-- The state touched by `handleDeleteMessage`: the local message list,
the authoritative messages table, the stored media files, the
localStorage `delete_<id>` records, the dispatched `messageDeleted`
custom events, the two modal states and the user-visible error flag. -/
structure ChatWorld where
  messages : List Message
  dbMessages : List Message
  storedMedia : List String
  deletionRecords : List (String × DeletionEvent)
  dispatchedEvents : List DeletionEvent
  deleteModal : Option (String × Bool)
  messageMenuOpen : Bool
  uiError : Bool
  deriving Repr, DecidableEq

/-- `handleDeleteMessage` (Chat.tsx 1324-1386): requires an open delete
modal and a profile; looks up the message; with `deleteForEveryone` it
removes stored media, deletes the row (`dbOk` models the awaited delete
throwing, which is caught and surfaced as an alert), writes a
localStorage deletion record and dispatches a `messageDeleted` event,
then removes the entry locally and closes the modals; without it, it
only removes the entry from the local list (the filter runs twice in the
source, lines 1374 and 1378, which is the same filter) and closes the
modals. -/
def handleDeleteMessage (chatId : String) (profile : Option String)
    (dbOk : Bool) (now : Int) (deleteForEveryone : Bool) (w : ChatWorld) :
    ChatWorld :=
  match w.deleteModal, profile with
  | none, _ => w
  | _, none => w
  | some (mid, _own), some _pid =>
    match w.messages.find? (fun m => m.id == mid) with
    | none => w
    | some msgToDelete =>
      if deleteForEveryone then
        let media1 := match msgToDelete.media_url with
          | some url =>
            match (url.splitOn "/").getLast? with
            | some fileName =>
                w.storedMedia.filter (fun f => f != fileName)
            | none => w.storedMedia
          | none => w.storedMedia
        if dbOk then
          let ev : DeletionEvent := ⟨chatId, mid, now⟩
          { w with
              messages := w.messages.filter (fun m => m.id != mid)
              dbMessages := w.dbMessages.filter (fun m => m.id != mid)
              storedMedia := media1
              deletionRecords :=
                w.deletionRecords ++ [("delete_" ++ mid, ev)]
              dispatchedEvents := w.dispatchedEvents ++ [ev]
              deleteModal := none
              messageMenuOpen := false }
        else
          { w with
              storedMedia := media1
              uiError := true }
      else
        { w with
            messages := w.messages.filter (fun m => m.id != mid)
            deleteModal := none
            messageMenuOpen := false }

/-- C10: `handleDeleteMessage` with `deleteForEveryone = false` removes
the matching message from the local list and closes the modals, and
leaves the authoritative table, the stored media, the cross-tab deletion
records, the dispatched events and the error flag untouched. -/
theorem delete_for_me_is_local_only (chatId pid : String) (dbOk : Bool)
    (now : Int) (w : ChatWorld) (mid : String) (own : Bool)
    (hmodal : w.deleteModal = some (mid, own))
    (hfound : (w.messages.find? (fun m => m.id == mid)).isSome = true) :
    (handleDeleteMessage chatId (some pid) dbOk now false w).messages =
      w.messages.filter (fun m => m.id != mid) ∧
    (handleDeleteMessage chatId (some pid) dbOk now false w).dbMessages =
      w.dbMessages ∧
    (handleDeleteMessage chatId (some pid) dbOk now false w).storedMedia =
      w.storedMedia ∧
    (handleDeleteMessage chatId (some pid) dbOk now false
        w).deletionRecords = w.deletionRecords ∧
    (handleDeleteMessage chatId (some pid) dbOk now false
        w).dispatchedEvents = w.dispatchedEvents ∧
    (handleDeleteMessage chatId (some pid) dbOk now false w).uiError =
      w.uiError ∧
    (handleDeleteMessage chatId (some pid) dbOk now false w).deleteModal =
      none ∧
    (handleDeleteMessage chatId (some pid) dbOk now false
        w).messageMenuOpen = false := by
  obtain ⟨msg, hmsg⟩ := Option.isSome_iff_exists.mp hfound
  simp [handleDeleteMessage, hmodal, hmsg]

/-- A concrete world for the C10 witness. -/
def world0 : ChatWorld :=
  { messages := [confirmedMsg], dbMessages := [confirmedMsg],
    storedMedia := ["f.png"], deletionRecords := [],
    dispatchedEvents := [], deleteModal := some ("m1", true),
    messageMenuOpen := true, uiError := false }

/-- Witness for the C10 theorem at a concrete input. -/
theorem delete_for_me_is_local_only_w :
    world0.deleteModal = some ("m1", true) ∧
    (handleDeleteMessage "c" (some "u") true 5 false world0).messages =
      [] ∧
    (handleDeleteMessage "c" (some "u") true 5 false world0).dbMessages =
      world0.dbMessages ∧
    (handleDeleteMessage "c" (some "u") true 5 false world0).storedMedia =
      world0.storedMedia := by
  have h := delete_for_me_is_local_only "c" "u" true 5 world0 "m1" true
    (by rfl) (by rfl)
  refine ⟨by rfl, ?_, h.2.1, h.2.2.1⟩
  rw [h.1]
  rfl

/-- Witness for the C2 amended theorem at a concrete input. -/
theorem delete_does_not_win_over_late_reconcile_w :
    "temp-1" ∈ ids [pendingMsg] ∧ "temp-1" ≠ confirmedMsg.id ∧
    (reconcile (applyRemoteDelete [pendingMsg] confirmedMsg.id) "temp-1"
      confirmedMsg).any (fun x => x.id == confirmedMsg.id) = true :=
  ⟨by decide, by decide,
    delete_does_not_win_over_late_reconcile [pendingMsg] "temp-1"
      confirmedMsg (by decide) (by decide)⟩

end WhatsChat
